import Mathlib

/-!
Shallow embedding of the read-only e-commerce API (Django REST Framework
project: `api/serializers.py`, `api/views.py`, `api/urls.py`).

Money is represented in integer cents; a `DecimalField(max_digits=10,
decimal_places=2)` value `c` cents has rational value `c / 100` and is
rendered by DRF as a fixed two-decimal-place string, while a `FloatField`
is rendered as a JSON number.  Rendered payloads are modelled by the
`JVal` type below.

The repository's `api/models.py` is not part of the provided sources;
the entities `Product`, `Order`, `OrderItem` and the derived
`item_subtotal` property are modelled from the specification's data
model section (spec §3).
-/

namespace DrfApi

/-- Rendered JSON value as produced by the framework's JSON renderer. -/
inductive JVal where
  | null : JVal
  | num (q : ℚ) : JVal
  | str (s : String) : JVal
  | arr (xs : List JVal) : JVal
  | obj (fields : List (String × JVal)) : JVal

/-- Keys of a rendered JSON object (empty for non-objects). -/
def JVal.keys : JVal → List String
  | .obj fs => fs.map (fun f => f.1)
  | _ => []

/-- Field lookup in a rendered JSON object. -/
def JVal.getField (j : JVal) (k : String) : Option JVal :=
  match j with
  | .obj fs => (fs.find? (fun f => f.1 == k)).map (fun f => f.2)
  | _ => none

/-- Modelled from the spec: `Product` row of the missing `api/models.py`
(spec §3: id, name, description, price (decimal, 2dp), stock). The price
is stored in integer cents. -/
structure Product where
  id : Nat
  name : String
  description : String
  price : Int
  stock : Nat
deriving DecidableEq

/-- Modelled from the spec: `Order` row of the missing `api/models.py`
(spec §3: order_id, created_at, user (owner), status). -/
structure Order where
  order_id : Nat
  created_at : Nat
  user : Nat
  status : String
deriving DecidableEq

/-- Modelled from the spec: `OrderItem` row of the missing
`api/models.py` (spec §3: belongs to one Order, references one Product,
quantity). -/
structure OrderItem where
  order_id : Nat
  product_id : Nat
  quantity : Nat
deriving DecidableEq

/-- Database snapshot: the three tables the read endpoints touch. -/
structure DB where
  products : List Product
  orders : List Order
  order_items : List OrderItem

/-- Rational value of a 2-decimal-place decimal stored in cents. -/
def decVal (c : Int) : ℚ := (c : ℚ) / 100

/-- Two-decimal-place string rendering of a decimal stored in cents
(how DRF renders a `DecimalField` with `decimal_places=2`). -/
def formatCents (c : Int) : String :=
  let n := c.natAbs
  let frac := n % 100
  let fracStr := (if frac < 10 then "0" else "") ++ toString frac
  let s := toString (n / 100) ++ "." ++ fracStr
  if c < 0 then "-" ++ s else s

/-- Foreign-key resolution of an `OrderItem.product` reference against
the current `Product` table. -/
def findProduct (db : DB) (pid : Nat) : Option Product :=
  db.products.find? (fun p => p.id == pid)

/-- Modelled from the spec: the `item_subtotal` derived property of the
missing `api/models.py` (spec §3: "item_subtotal (derived: quantity ×
product.price)"), evaluated against the current product price; `none`
when the referenced product row is absent. -/
def item_subtotal (db : DB) (it : OrderItem) : Option ℚ :=
  (findProduct db it.product_id).map (fun p => (it.quantity : ℚ) * decVal p.price)

/-- Failure-propagating map, as used by `many=True` serialization: each
element is serialized in order and any failure aborts the whole list. -/
def mapOption (f : α → Option β) : List α → Option (List β)
  | [] => some []
  | x :: xs => do
    let y ← f x
    let ys ← mapOption f xs
    pure (y :: ys)

/-- `ProductSerializer.validate_price` from `api/serializers.py`:
rejects any value `≤ 0` with a `ValidationError` message, returns the
value unchanged otherwise. -/
def validate_price (value : ℚ) : Except String ℚ :=
  if value ≤ 0 then .error "Price must be greater than zero."
  else .ok value

/-- `ProductSerializer` from `api/serializers.py`: fields
`(id, name, description, price, stock)`; `price` is a `DecimalField`
rendered as a 2-decimal string. -/
def serializeProduct (p : Product) : JVal :=
  .obj
    [ ("id", .num p.id),
      ("name", .str p.name),
      ("description", .str p.description),
      ("price", .str (formatCents p.price)),
      ("stock", .num p.stock) ]

/-- `OrderItemSerializer` from `api/serializers.py`: flattens the
product reference to `product_name` (`source="product.name"`) and
`product_price` (`DecimalField`, `source="product.price"`) and includes
`quantity` and the model's `item_subtotal`. -/
def serializeOrderItem (db : DB) (it : OrderItem) : Option JVal := do
  let p ← findProduct db it.product_id
  let sub ← item_subtotal db it
  pure (.obj
    [ ("product_name", .str p.name),
      ("product_price", .str (formatCents p.price)),
      ("quantity", .num it.quantity),
      ("item_subtotal", .num sub) ])

/-- Reverse relation `obj.items.all()`: the `OrderItem` rows whose
foreign key points at the given order. -/
def itemsOf (db : DB) (o : Order) : List OrderItem :=
  db.order_items.filter (fun it => it.order_id == o.order_id)

/-- `OrderSerializer.get_total_price` from `api/serializers.py`:
`sum(item.item_subtotal for item in obj.items.all())`. -/
def get_total_price (db : DB) (o : Order) : Option ℚ :=
  (mapOption (item_subtotal db) (itemsOf db o)).map List.sum

/-- `OrderSerializer` from `api/serializers.py`: fields
`(order_id, created_at, user, status, items, total_price)` with `items`
the nested `OrderItemSerializer(many=True)` and `total_price` the
`SerializerMethodField` above. -/
def serializeOrder (db : DB) (o : Order) : Option JVal := do
  let items ← mapOption (serializeOrderItem db) (itemsOf db o)
  let total ← get_total_price db o
  pure (.obj
    [ ("order_id", .num o.order_id),
      ("created_at", .num o.created_at),
      ("user", .num o.user),
      ("status", .str o.status),
      ("items", .arr items),
      ("total_price", .num total) ])

/-- HTTP response: status code and optional rendered JSON body. -/
structure Response where
  status : Nat
  body : Option JVal

/-- `ProductListAPIView` from `api/views.py` (`GET /products/`):
serializes `Product.objects.all()`. -/
def ProductListAPIView (db : DB) : Response :=
  ⟨200, some (.arr (db.products.map serializeProduct))⟩

/-- `ProductDetailAPIView` from `api/views.py` (`GET
/products/{product_id}`, `lookup_url_kwarg = 'product_id'`): the generic
retrieve view resolves the lookup against `Product.objects.all()` and
returns 404 when no row matches. -/
def ProductDetailAPIView (db : DB) (product_id : Nat) : Response :=
  match findProduct db product_id with
  | some p => ⟨200, some (serializeProduct p)⟩
  | none => ⟨404, none⟩

/-- `OrderListAPIView` from `api/views.py` (`GET /orders/`): serializes
`Order.objects.prefetch_related("items__product")` with
`OrderSerializer(many=True)`; a dangling product reference would raise,
modelled as a 500. -/
def OrderListAPIView (db : DB) : Response :=
  match mapOption (serializeOrder db) db.orders with
  | some bodies => ⟨200, some (.arr bodies)⟩
  | none => ⟨500, none⟩

/-- `UserOrderListAPIView.get_queryset` from `api/views.py`:
`super().get_queryset().filter(user=self.request.user)`. -/
def userOrdersQueryset (db : DB) (u : Nat) : List Order :=
  db.orders.filter (fun o => o.user == u)

/-- `UserOrderListAPIView` from `api/views.py` (`GET /user-orders/`).
Modelled from the spec: the authentication gate lives in the project
settings, which are not part of the provided sources; per the spec this
endpoint "requires authenticated identity" and answers "401/403 if
unauthenticated", modelled here as a 401 when no identity is attached. -/
def UserOrderListAPIView (db : DB) (auth : Option Nat) : Response :=
  match auth with
  | none => ⟨401, none⟩
  | some u =>
    match mapOption (serializeOrder db) (userOrdersQueryset db u) with
    | some bodies => ⟨200, some (.arr bodies)⟩
    | none => ⟨500, none⟩

/-- Django `Max("price")` aggregate: `None` on an empty table, the
maximum price otherwise. -/
def aggregateMaxPrice (db : DB) : Option ℚ :=
  match db.products.map (fun p => decVal p.price) with
  | [] => none
  | x :: xs => some (xs.foldl max x)

/-- `product_info` from `api/views.py` (`GET /products/info`): builds
`{products, count, max_price}` and serializes it with
`ProductInfoSerializer`; `max_price` is a `FloatField` rendered as a
JSON number, and a `None` aggregate is rendered as `null`. -/
def product_info (db : DB) : Response :=
  ⟨200, some (.obj
    [ ("products", .arr (db.products.map serializeProduct)),
      ("count", .num db.products.length),
      ("max_price",
        match aggregateMaxPrice db with
        | none => .null
        | some m => .num m) ])⟩

/-! ### Eager-loading model

`prefetch_related("items__product")` executes one base query for the
orders plus one batched query per path segment: one query fetching every
`OrderItem` whose order is in the result set, and one query fetching
every `Product` referenced by those items.  The results of those three
queries are assembled into an in-memory snapshot from which the
response is rendered without further queries. -/

/-- Prefetch path of `OrderListAPIView`, the segments of
`"items__product"`. -/
def orderPrefetchPath : List String := ["items", "product"]

/-- Number of logical query executions of a list endpoint with the
given prefetch path: one base query plus one batched query per path
segment. -/
def listQueryCount (path : List String) : Nat := 1 + path.length

/-- Batched query 2: all `OrderItem` rows whose order id is among the
fetched orders (a single `IN (...)` query). -/
def fetchItemsFor (db : DB) (oids : List Nat) : List OrderItem :=
  db.order_items.filter (fun it => oids.contains it.order_id)

/-- Batched query 3: all `Product` rows referenced by the fetched items
(a single `IN (...)` query). -/
def fetchProductsFor (db : DB) (pids : List Nat) : List Product :=
  db.products.filter (fun p => pids.contains p.id)

/-- In-memory snapshot assembled from the three prefetch queries of
`OrderListAPIView`; rendering reads only from this snapshot. -/
def prefetchedDB (db : DB) : DB :=
  let os := db.orders
  let its := fetchItemsFor db (os.map (fun o => o.order_id))
  let ps := fetchProductsFor db (its.map (fun it => it.product_id))
  ⟨ps, os, its⟩

/-! ### Concrete fixtures

The scenario of spec §8: products A (price 10.00) and B (price 5.00),
one order with items [A×2, B×3] owned by user 1, and one empty order
owned by user 2. -/

/-- Product A of the spec §8 scenario: price 10.00. -/
def productA : Product := ⟨1, "A", "product A", 1000, 5⟩

/-- Product B of the spec §8 scenario: price 5.00. -/
def productB : Product := ⟨2, "B", "product B", 500, 7⟩

/-- Order of the spec §8 scenario, owned by user 1. -/
def sampleOrder : Order := ⟨1, 0, 1, "pending"⟩

/-- An order with no items, owned by user 2. -/
def emptyOrder : Order := ⟨2, 0, 2, "pending"⟩

/-- Database snapshot of the spec §8 scenario. -/
def sampleDB : DB :=
  ⟨[productA, productB], [sampleOrder, emptyOrder], [⟨1, 1, 2⟩, ⟨1, 2, 3⟩]⟩

/-- Database snapshot with no products at all. -/
def emptyDB : DB := ⟨[], [], []⟩

/-- Rendered body of `sampleOrder` in `sampleDB`. -/
def sampleOrderJson : JVal := (serializeOrder sampleDB sampleOrder).getD .null

/-- Rendered body of the first item of `sampleOrder`. -/
def sampleItemJson : JVal := (serializeOrderItem sampleDB ⟨1, 1, 2⟩).getD .null

/-- Rendered bodies of the full order list of `sampleDB`. -/
def sampleAllBodies : List JVal :=
  (mapOption (serializeOrder sampleDB) sampleDB.orders).getD []

/-- Rendered bodies of user 1's order list in `sampleDB`. -/
def sampleUserBodies : List JVal :=
  (mapOption (serializeOrder sampleDB) (userOrdersQueryset sampleDB 1)).getD []

/-- Rendered bodies of user 2's order list in `sampleDB`. -/
def sampleUser2Bodies : List JVal :=
  (mapOption (serializeOrder sampleDB) (userOrdersQueryset sampleDB 2)).getD []

/-- Database snapshot holding a single product. -/
def singleDB : DB := ⟨[productA], [], []⟩

/-! ### Helper lemmas -/

/-- Mapping with failure propagation only depends on the function's
values on the list. -/
theorem mapOption_congr {α β : Type} {f g : α → Option β} :
    ∀ {l : List α}, (∀ x ∈ l, f x = g x) → mapOption f l = mapOption g l := by
  intro l
  induction l with
  | nil => intro _; rfl
  | cons x xs ih =>
    intro h
    simp only [mapOption]
    rw [h x (List.mem_cons_self x xs), ih (fun y hy => h y (List.mem_cons_of_mem _ hy))]

/-- Every element of a successful `mapOption` result comes from some
element of the input list. -/
theorem mapOption_mem {α β : Type} {f : α → Option β} :
    ∀ {l : List α} {ys : List β}, mapOption f l = some ys →
      ∀ y ∈ ys, ∃ x ∈ l, f x = some y := by
  intro l
  induction l with
  | nil =>
    intro ys h y hy
    simp only [mapOption, Option.some.injEq] at h
    subst h
    simp at hy
  | cons x xs ih =>
    intro ys h y hy
    simp only [mapOption, Option.bind_eq_bind, Option.bind_eq_some, Option.pure_def,
      Option.some.injEq] at h
    obtain ⟨b, hb, rest, hrest, hys⟩ := h
    subst hys
    rcases List.mem_cons.mp hy with h1 | h2
    · exact ⟨x, List.mem_cons_self x xs, by rw [hb, h1]⟩
    · obtain ⟨a, ha, hfa⟩ := ih hrest y h2
      exact ⟨a, List.mem_cons_of_mem _ ha, hfa⟩

/-- A successful `mapOption` over a list restricts to a successful
`mapOption` over any sublist, with a sublist result. -/
theorem mapOption_sublist {α β : Type} {f : α → Option β} :
    ∀ {l₁ l₂ : List α}, l₁.Sublist l₂ → ∀ {ys : List β},
      mapOption f l₂ = some ys →
      ∃ xs, mapOption f l₁ = some xs ∧ xs.Sublist ys := by
  intro l₁ l₂ hsub
  induction hsub with
  | slnil =>
    intro ys h
    simp only [mapOption, Option.some.injEq] at h
    subst h
    exact ⟨[], rfl, List.Sublist.refl []⟩
  | cons a hs ih =>
    intro ys h
    simp only [mapOption, Option.bind_eq_bind, Option.bind_eq_some, Option.pure_def,
      Option.some.injEq] at h
    obtain ⟨b, _, rest, hrest, hys⟩ := h
    subst hys
    obtain ⟨xs, hxs, hxsub⟩ := ih hrest
    exact ⟨xs, hxs, hxsub.trans (List.sublist_cons_self b rest)⟩
  | cons₂ a hs ih =>
    intro ys h
    simp only [mapOption, Option.bind_eq_bind, Option.bind_eq_some, Option.pure_def,
      Option.some.injEq] at h
    obtain ⟨b, hb, rest, hrest, hys⟩ := h
    subst hys
    obtain ⟨xs, hxs, hxsub⟩ := ih hrest
    refine ⟨b :: xs, ?_, hxsub.cons₂ b⟩
    simp only [mapOption, Option.bind_eq_bind, hb, Option.some_bind, hxs, Option.pure_def]

/-- Filtering by a weaker predicate first does not change a filter. -/
theorem filter_filter_imp {α : Type} {p q : α → Bool}
    (h : ∀ x, p x = true → q x = true) :
    ∀ l : List α, (l.filter q).filter p = l.filter p := by
  intro l
  induction l with
  | nil => rfl
  | cons x xs ih =>
    cases hq : q x with
    | true =>
      simp only [List.filter_cons, hq, if_true, ih]
    | false =>
      have hp : p x = false := by
        cases hpx : p x with
        | true => rw [h x hpx] at hq; cases hq
        | false => rfl
      simp [List.filter_cons, hq, hp, ih]

/-- Filtering by a weaker predicate first does not change a `find?`. -/
theorem find?_filter_imp {α : Type} {p q : α → Bool}
    (h : ∀ x, p x = true → q x = true) :
    ∀ l : List α, (l.filter q).find? p = l.find? p := by
  intro l
  induction l with
  | nil => rfl
  | cons x xs ih =>
    cases hq : q x with
    | true =>
      cases hp : p x with
      | true =>
        simp only [List.filter_cons, hq, if_true, List.find?_cons, hp, ih]
      | false =>
        simp only [List.filter_cons, hq, if_true, List.find?_cons, hp, ih]
    | false =>
      have hp : p x = false := by
        cases hpx : p x with
        | true => rw [h x hpx] at hq; cases hq
        | false => rfl
      simp [List.filter_cons, hq, List.find?_cons, hp, ih]

/-- Successful order serialization determines the exact rendered
object. -/
theorem serializeOrder_eq_some {db : DB} {o : Order} {j : JVal}
    (h : serializeOrder db o = some j) :
    ∃ items total,
      mapOption (serializeOrderItem db) (itemsOf db o) = some items ∧
      get_total_price db o = some total ∧
      j = .obj
        [ ("order_id", .num o.order_id),
          ("created_at", .num o.created_at),
          ("user", .num o.user),
          ("status", .str o.status),
          ("items", .arr items),
          ("total_price", .num total) ] := by
  simp only [serializeOrder, Option.bind_eq_bind, Option.bind_eq_some, Option.pure_def,
    Option.some.injEq] at h
  obtain ⟨items, hi, total, ht, hj⟩ := h
  exact ⟨items, total, hi, ht, hj.symm⟩

/-- The `user` field of a serialized order is the owning user. -/
theorem serializeOrder_user {db : DB} {o : Order} {j : JVal}
    (h : serializeOrder db o = some j) :
    j.getField "user" = some (.num o.user) := by
  obtain ⟨items, total, _, _, hj⟩ := serializeOrder_eq_some h
  subst hj
  rfl

/-- Items fetched by the batched item query contain every item of every
fetched order. -/
theorem mem_fetchItemsFor {db : DB} {o : Order} {it : OrderItem}
    (ho : o ∈ db.orders) (hit : it ∈ itemsOf db o) :
    it ∈ fetchItemsFor db (db.orders.map (fun o => o.order_id)) := by
  obtain ⟨hmem, heq⟩ := List.mem_filter.mp hit
  refine List.mem_filter.mpr ⟨hmem, ?_⟩
  have : it.order_id = o.order_id := by simpa using heq
  rw [this]
  simpa using List.mem_map_of_mem (fun o => o.order_id) ho

/-- The reverse item relation is unchanged when read from the prefetch
snapshot, for any order in the fetched order list. -/
theorem itemsOf_prefetched {db : DB} {o : Order} (ho : o ∈ db.orders) :
    itemsOf (prefetchedDB db) o = itemsOf db o := by
  show (fetchItemsFor db (db.orders.map (fun o => o.order_id))).filter
      (fun it => it.order_id == o.order_id) = itemsOf db o
  unfold fetchItemsFor itemsOf
  apply filter_filter_imp
  intro it hit
  have : it.order_id = o.order_id := by simpa using hit
  rw [this]
  simpa using List.mem_map_of_mem (fun o => o.order_id) ho

/-- Foreign-key resolution is unchanged when read from the prefetch
snapshot, for any item of a fetched order. -/
theorem findProduct_prefetched {db : DB} {o : Order} {it : OrderItem}
    (ho : o ∈ db.orders) (hit : it ∈ itemsOf db o) :
    findProduct (prefetchedDB db) it.product_id = findProduct db it.product_id := by
  show (fetchProductsFor db _).find? (fun p => p.id == it.product_id)
      = findProduct db it.product_id
  unfold fetchProductsFor findProduct
  apply find?_filter_imp
  intro x hx
  have hxid : x.id = it.product_id := by simpa using hx
  rw [hxid]
  have hmem := mem_fetchItemsFor ho hit
  simpa using List.mem_map_of_mem (fun it => it.product_id) hmem

/-- The derived subtotal is unchanged when read from the prefetch
snapshot. -/
theorem item_subtotal_prefetched {db : DB} {o : Order} {it : OrderItem}
    (ho : o ∈ db.orders) (hit : it ∈ itemsOf db o) :
    item_subtotal (prefetchedDB db) it = item_subtotal db it := by
  unfold item_subtotal
  rw [findProduct_prefetched ho hit]

/-- Item serialization is unchanged when read from the prefetch
snapshot. -/
theorem serializeOrderItem_prefetched {db : DB} {o : Order} {it : OrderItem}
    (ho : o ∈ db.orders) (hit : it ∈ itemsOf db o) :
    serializeOrderItem (prefetchedDB db) it = serializeOrderItem db it := by
  unfold serializeOrderItem
  rw [findProduct_prefetched ho hit, item_subtotal_prefetched ho hit]

/-- Order serialization is unchanged when read from the prefetch
snapshot, for any fetched order. -/
theorem serializeOrder_prefetched {db : DB} {o : Order} (ho : o ∈ db.orders) :
    serializeOrder (prefetchedDB db) o = serializeOrder db o := by
  unfold serializeOrder get_total_price
  rw [itemsOf_prefetched ho]
  rw [mapOption_congr (fun it hit => serializeOrderItem_prefetched ho hit)]
  rw [mapOption_congr (fun it hit => item_subtotal_prefetched ho hit)]

/-- A left fold of `max` yields an element of the list that bounds
every element. -/
theorem foldl_max_spec {α : Type} [LinearOrder α] :
    ∀ (xs : List α) (x : α),
      xs.foldl max x ∈ x :: xs ∧ ∀ y ∈ x :: xs, y ≤ xs.foldl max x := by
  intro xs
  induction xs with
  | nil =>
    intro x
    refine ⟨List.mem_singleton.mpr rfl, ?_⟩
    intro y hy
    rw [List.mem_singleton.mp hy]
    exact le_refl _
  | cons z zs ih =>
    intro x
    simp only [List.foldl_cons]
    obtain ⟨hmem, hle⟩ := ih (max x z)
    constructor
    · rcases List.mem_cons.mp hmem with h1 | h2
      · rcases max_choice x z with hc | hc <;> rw [h1, hc] <;> simp
      · simp [h2]
    · intro y hy
      rcases List.mem_cons.mp hy with h1 | h2
      · rw [h1]
        exact le_trans (le_max_left x z) (hle _ (List.mem_cons_self _ _))
      · rcases List.mem_cons.mp h2 with h3 | h4
        · rw [h3]
          exact le_trans (le_max_right x z) (hle _ (List.mem_cons_self _ _))
        · exact hle y (List.mem_cons_of_mem _ h4)

/-! ### Claim theorems -/

/-- C1: for every serialized Order, the rendered `total_price` equals
the sum of `item_subtotal` over exactly the `OrderItem` rows belonging
to that order (each row once, the row set being a sublist of the item
table), where each subtotal is the item quantity times the referenced
product's current price — derived at read time, with no stored total
column. -/
theorem order_total_price_sums_item_subtotals (db : DB) (o : Order) (j : JVal)
    (h : serializeOrder db o = some j) :
    ∃ subs : List ℚ,
      mapOption (item_subtotal db) (itemsOf db o) = some subs ∧
      j.getField "total_price" = some (.num subs.sum) ∧
      (itemsOf db o).Sublist db.order_items ∧
      ∀ it ∈ itemsOf db o, ∀ p, findProduct db it.product_id = some p →
        item_subtotal db it = some ((it.quantity : ℚ) * decVal p.price) := by
  obtain ⟨items, total, hi, ht, hj⟩ := serializeOrder_eq_some h
  unfold get_total_price at ht
  obtain ⟨subs, hsubs, hsum⟩ := Option.map_eq_some'.mp ht
  refine ⟨subs, hsubs, ?_, List.filter_sublist _, ?_⟩
  · subst hj
    rw [show List.sum subs = total from hsum]
    rfl
  · intro it _ p hp
    unfold item_subtotal
    rw [hp]
    rfl

/-- C1 witness: the spec §8 scenario order (items A×2 at 10.00 and
B×3 at 5.00) instantiates the total-price theorem. -/
theorem order_total_price_sums_item_subtotals_witness :
    ∃ subs : List ℚ,
      mapOption (item_subtotal sampleDB) (itemsOf sampleDB sampleOrder) = some subs ∧
      sampleOrderJson.getField "total_price" = some (.num subs.sum) ∧
      (itemsOf sampleDB sampleOrder).Sublist sampleDB.order_items ∧
      ∀ it ∈ itemsOf sampleDB sampleOrder, ∀ p,
        findProduct sampleDB it.product_id = some p →
        item_subtotal sampleDB it = some ((it.quantity : ℚ) * decVal p.price) :=
  order_total_price_sums_item_subtotals sampleDB sampleOrder sampleOrderJson rfl

/-- C2: the order list endpoint with prefetch path `items__product`
performs exactly 3 logical queries (one for orders, one batched query
for items, one batched query for products) for every database state,
and the snapshot assembled from those three query results renders the
exact same response as unrestricted database access — eager loading
never degrades to per-row queries. -/
theorem order_list_prefetch_three_queries :
    listQueryCount orderPrefetchPath = 3 ∧
    ∀ db : DB,
      mapOption (serializeOrder (prefetchedDB db)) ((prefetchedDB db).orders)
        = mapOption (serializeOrder db) db.orders := by
  refine ⟨rfl, ?_⟩
  intro db
  have horders : (prefetchedDB db).orders = db.orders := rfl
  rw [horders]
  exact mapOption_congr (fun o ho => serializeOrder_prefetched ho)

/-- C3: on an empty product table, the product-info endpoint succeeds
with status 200, `count = 0` and `max_price = null`. -/
theorem product_info_empty_ok (db : DB) (h : db.products = []) :
    product_info db = ⟨200, some (.obj
      [ ("products", .arr []),
        ("count", .num 0),
        ("max_price", .null) ])⟩ := by
  unfold product_info aggregateMaxPrice
  rw [h]
  rfl

/-- C3 witness: the empty database instantiates the empty-aggregate
theorem. -/
theorem product_info_empty_ok_witness :
    product_info emptyDB = ⟨200, some (.obj
      [ ("products", .arr []),
        ("count", .num 0),
        ("max_price", .null) ])⟩ :=
  product_info_empty_ok emptyDB rfl

/-- C4: the user-filtered order queryset is exactly the full order list
filtered by owner; every returned order belongs to the requesting user;
and whenever both endpoints render successfully, both apply the same
order serializer (`serializeOrder`), the filtered bodies form a sublist
of the full list's bodies, and no rendered order carries a different
user. -/
theorem user_orders_filter_and_subset (db : DB) (u : Nat) :
    userOrdersQueryset db u = db.orders.filter (fun o => o.user == u) ∧
    (∀ o ∈ userOrdersQueryset db u, o.user = u) ∧
    ∀ allBodies myBodies,
      mapOption (serializeOrder db) db.orders = some allBodies →
      mapOption (serializeOrder db) (userOrdersQueryset db u) = some myBodies →
      OrderListAPIView db = ⟨200, some (.arr allBodies)⟩ ∧
      UserOrderListAPIView db (some u) = ⟨200, some (.arr myBodies)⟩ ∧
      myBodies.Sublist allBodies ∧
      ∀ j ∈ myBodies, j.getField "user" = some (.num u) := by
  refine ⟨rfl, ?_, ?_⟩
  · intro o ho
    simpa using (List.mem_filter.mp ho).2
  · intro allBodies myBodies hall hmine
    refine ⟨?_, ?_, ?_, ?_⟩
    · unfold OrderListAPIView
      rw [hall]
    · simp only [UserOrderListAPIView, hmine]
    · obtain ⟨xs, hxs, hsub⟩ := mapOption_sublist (List.filter_sublist db.orders) hall
      have hx : mapOption (serializeOrder db) (userOrdersQueryset db u) = some xs := hxs
      rw [hx] at hmine
      rw [← Option.some.inj hmine]
      exact hsub
    · intro j hj
      obtain ⟨o, ho, hoj⟩ := mapOption_mem hmine j hj
      have huser : o.user = u := by simpa using (List.mem_filter.mp ho).2
      have hu := serializeOrder_user hoj
      rw [huser] at hu
      exact hu

/-- C4 witness: in the spec §8 database, user 1's order list renders as
a sublist of the full order list, every rendered order carrying
user 1. -/
theorem user_orders_filter_and_subset_witness :
    OrderListAPIView sampleDB = ⟨200, some (.arr sampleAllBodies)⟩ ∧
    UserOrderListAPIView sampleDB (some 1) = ⟨200, some (.arr sampleUserBodies)⟩ ∧
    sampleUserBodies.Sublist sampleAllBodies ∧
    ∀ j ∈ sampleUserBodies, j.getField "user" = some (.num ((1 : Nat) : ℚ)) :=
  (user_orders_filter_and_subset sampleDB 1).2.2 sampleAllBodies sampleUserBodies rfl rfl

/-- C5: the list-my-orders endpoint answers an unauthenticated request
with status 401 (in particular, a status in {401, 403}) and no body,
while an authenticated caller whose order list renders successfully
receives a 200 whose every rendered order belongs to that caller. -/
theorem user_orders_requires_authentication (db : DB) :
    UserOrderListAPIView db none = ⟨401, none⟩ ∧
    ((UserOrderListAPIView db none).status = 401 ∨
      (UserOrderListAPIView db none).status = 403) ∧
    ∀ u myBodies,
      mapOption (serializeOrder db) (userOrdersQueryset db u) = some myBodies →
      UserOrderListAPIView db (some u) = ⟨200, some (.arr myBodies)⟩ ∧
      ∀ j ∈ myBodies, j.getField "user" = some (.num u) := by
  refine ⟨rfl, Or.inl rfl, ?_⟩
  intro u myBodies hmine
  refine ⟨?_, ?_⟩
  · simp only [UserOrderListAPIView, hmine]
  · intro j hj
    obtain ⟨o, ho, hoj⟩ := mapOption_mem hmine j hj
    have huser : o.user = u := by simpa using (List.mem_filter.mp ho).2
    have hu := serializeOrder_user hoj
    rw [huser] at hu
    exact hu

/-- C5 witness: user 2's authenticated request against the spec §8
database yields a 200 with that user's orders. -/
theorem user_orders_requires_authentication_witness :
    UserOrderListAPIView sampleDB (some 2) = ⟨200, some (.arr sampleUser2Bodies)⟩ ∧
    ∀ j ∈ sampleUser2Bodies, j.getField "user" = some (.num ((2 : Nat) : ℚ)) :=
  (user_orders_requires_authentication sampleDB).2.2 2 sampleUser2Bodies rfl

/-- C6: the retrieve-product endpoint answers 404 with no body for
every product id absent from the table, and 200 with the serialized
product for every id present. -/
theorem product_detail_404_on_missing (db : DB) (pid : Nat) :
    (findProduct db pid = none → ProductDetailAPIView db pid = ⟨404, none⟩) ∧
    ∀ p, findProduct db pid = some p →
      ProductDetailAPIView db pid = ⟨200, some (serializeProduct p)⟩ := by
  constructor
  · intro h
    unfold ProductDetailAPIView
    rw [h]
  · intro p h
    unfold ProductDetailAPIView
    rw [h]

/-- C6 witness: id 99 is absent from the spec §8 database and yields a
404; id 1 is present and yields product A with a 200. -/
theorem product_detail_404_on_missing_witness :
    ProductDetailAPIView sampleDB 99 = ⟨404, none⟩ ∧
    ProductDetailAPIView sampleDB 1 = ⟨200, some (serializeProduct productA)⟩ :=
  ⟨(product_detail_404_on_missing sampleDB 99).1 rfl,
   (product_detail_404_on_missing sampleDB 1).2 productA rfl⟩

/-- C7: price validation rejects every value `≤ 0` with the
`ValidationError` message naming the reason, and returns every value
`> 0` unchanged. -/
theorem validate_price_rejects_nonpositive (v : ℚ) :
    (v ≤ 0 → validate_price v = .error "Price must be greater than zero.") ∧
    (0 < v → validate_price v = .ok v) := by
  constructor
  · intro h
    unfold validate_price
    rw [if_pos h]
  · intro h
    unfold validate_price
    rw [if_neg (not_le.mpr h)]

/-- C7 witness: -1 is rejected with the validation message and 5 is
returned unchanged. -/
theorem validate_price_rejects_nonpositive_witness :
    validate_price (-1) = .error "Price must be greater than zero." ∧
    validate_price 5 = .ok 5 :=
  ⟨(validate_price_rejects_nonpositive (-1)).1 (by norm_num),
   (validate_price_rejects_nonpositive 5).2 (by norm_num)⟩

/-- C8: a serialized order item is exactly the four-scalar object
`{product_name, product_price, quantity, item_subtotal}` — the product
reference flattened to its name and price — and its key set never
contains a `product` object nor the product's `id`, `description` or
`stock`. -/
theorem order_item_flattened_shape (db : DB) (it : OrderItem) (p : Product)
    (h : findProduct db it.product_id = some p) :
    serializeOrderItem db it = some (.obj
      [ ("product_name", .str p.name),
        ("product_price", .str (formatCents p.price)),
        ("quantity", .num it.quantity),
        ("item_subtotal", .num ((it.quantity : ℚ) * decVal p.price)) ]) ∧
    ∀ j, serializeOrderItem db it = some j →
      j.keys = ["product_name", "product_price", "quantity", "item_subtotal"] ∧
      "product" ∉ j.keys ∧ "id" ∉ j.keys ∧
      "description" ∉ j.keys ∧ "stock" ∉ j.keys := by
  have h1 : serializeOrderItem db it = some (.obj
      [ ("product_name", .str p.name),
        ("product_price", .str (formatCents p.price)),
        ("quantity", .num it.quantity),
        ("item_subtotal", .num ((it.quantity : ℚ) * decVal p.price)) ]) := by
    unfold serializeOrderItem item_subtotal
    rw [h]
    rfl
  refine ⟨h1, ?_⟩
  intro j hj
  rw [h1] at hj
  rw [← Option.some.inj hj]
  refine ⟨rfl, ?_, ?_, ?_, ?_⟩ <;> simp [JVal.keys]

/-- C8 witness: the rendered first item of the spec §8 order exposes
exactly the four flattened scalar fields. -/
theorem order_item_flattened_shape_witness :
    sampleItemJson.keys = ["product_name", "product_price", "quantity", "item_subtotal"] ∧
    "product" ∉ sampleItemJson.keys ∧ "id" ∉ sampleItemJson.keys ∧
    "description" ∉ sampleItemJson.keys ∧ "stock" ∉ sampleItemJson.keys :=
  (order_item_flattened_shape sampleDB ⟨1, 1, 2⟩ productA rfl).2 sampleItemJson rfl

/-- C9: an order with no items serializes successfully, with an empty
item array and `total_price = 0` (the empty sum) — not null and not an
error. -/
theorem empty_order_serializes_total_zero (db : DB) (o : Order)
    (h : itemsOf db o = []) :
    serializeOrder db o = some (.obj
      [ ("order_id", .num o.order_id),
        ("created_at", .num o.created_at),
        ("user", .num o.user),
        ("status", .str o.status),
        ("items", .arr []),
        ("total_price", .num 0) ]) := by
  unfold serializeOrder get_total_price
  rw [h]
  rfl

/-- C9 witness: the itemless order of the spec §8 database renders with
total 0. -/
theorem empty_order_serializes_total_zero_witness :
    serializeOrder sampleDB emptyOrder = some (.obj
      [ ("order_id", .num emptyOrder.order_id),
        ("created_at", .num emptyOrder.created_at),
        ("user", .num emptyOrder.user),
        ("status", .str emptyOrder.status),
        ("items", .arr []),
        ("total_price", .num 0) ]) :=
  empty_order_serializes_total_zero sampleDB emptyOrder rfl

/-- C10: for a non-empty product table the aggregate's `max_price` is
rendered as a JSON number (`FloatField`) equal to the numeric value of
the maximal product price, attained by some product and bounding all of
them, while each product's own `price` in the same response is rendered
as a fixed 2-decimal-place string (`DecimalField`). -/
theorem product_info_max_price_number (db : DB) (m : ℚ)
    (h : aggregateMaxPrice db = some m) :
    product_info db = ⟨200, some (.obj
      [ ("products", .arr (db.products.map serializeProduct)),
        ("count", .num db.products.length),
        ("max_price", .num m) ])⟩ ∧
    (∀ p ∈ db.products, decVal p.price ≤ m) ∧
    (∃ p ∈ db.products, decVal p.price = m) ∧
    ∀ p ∈ db.products, (serializeProduct p).getField "price"
      = some (.str (formatCents p.price)) := by
  refine ⟨?_, ?_, ?_, ?_⟩
  · simp only [product_info, h]
  · intro p hp
    unfold aggregateMaxPrice at h
    cases hmap : db.products.map (fun p => decVal p.price) with
    | nil => rw [hmap] at h; cases h
    | cons x xs =>
      rw [hmap] at h
      have hm : xs.foldl max x = m := Option.some.inj h
      have hmem : decVal p.price ∈ x :: xs := by
        rw [← hmap]
        exact List.mem_map_of_mem _ hp
      rw [← hm]
      exact (foldl_max_spec xs x).2 _ hmem
  · unfold aggregateMaxPrice at h
    cases hmap : db.products.map (fun p => decVal p.price) with
    | nil => rw [hmap] at h; cases h
    | cons x xs =>
      rw [hmap] at h
      have hm : xs.foldl max x = m := Option.some.inj h
      have hmem : m ∈ x :: xs := hm ▸ (foldl_max_spec xs x).1
      rw [← hmap] at hmem
      obtain ⟨p, hp, hpm⟩ := List.mem_map.mp hmem
      exact ⟨p, hp, hpm⟩
  · intro p _
    rfl

/-- C10 witness: in a table holding only product A, the aggregate's
`max_price` is the number 10 while product A's own price renders as the
string form. -/
theorem product_info_max_price_number_witness :
    product_info singleDB = ⟨200, some (.obj
      [ ("products", .arr (singleDB.products.map serializeProduct)),
        ("count", .num singleDB.products.length),
        ("max_price", .num (decVal productA.price)) ])⟩ ∧
    (∀ p ∈ singleDB.products, decVal p.price ≤ decVal productA.price) ∧
    (∃ p ∈ singleDB.products, decVal p.price = decVal productA.price) ∧
    ∀ p ∈ singleDB.products, (serializeProduct p).getField "price"
      = some (.str (formatCents p.price)) :=
  product_info_max_price_number singleDB (decVal productA.price) rfl

end DrfApi
